import Mathlib

/-!
Verification development for the `mc-panel-cli-interactive` repository.

The Lean definitions below are shallow embeddings of the Python source:

* `mc_panel/rcon_ui.py` — the multi-file log tailer (`tail_many`);
* `mc_panel/servers.py` — PID-file helpers and the process supervisor
  (`read_pid`, `running`, `stop`, `start`, `_find_jar`, `_poll_pid_or_detect`);
* `Archive/mc_panel/rcon.py` — the RCON client (`_pack`, `_recv`,
  `RconClient.command`);
* `mc_panel/installers.py` — the weighted progress tracker (`Progress`).

File contents are byte lists (`List Nat`), sockets are streams of delivered
chunks (`List (List Nat)`), Python floats are modelled as rationals, and
OS-level facts (process liveness, the process table, directory listings) are
passed in as explicit environment parameters.  Fallible Python code (caught
exceptions) is modelled with `Option`.
-/

/- ───────────────────────── Log tailer (mc_panel/rcon_ui.py) ───────────────────────── -/

/-- Byte budget of the boot-time priming read (`TAIL_BOOT_BYTES = 64_000`). -/
def TAIL_BOOT_BYTES : Nat := 64000

/-- Model of `f.readline()` in binary mode at the window start of `tail_many`:
consume bytes up to and including the first newline (byte 10); if no newline
occurs, the whole rest is consumed. -/
def dropLine : List Nat → List Nat
  | [] => []
  | c :: t => if c = 10 then t else dropLine t

/-- The priming read of `tail_many` for one existing file (rcon_ui.py:90-99):
seek to `end`, window start `max 0 (end - TAIL_BOOT_BYTES)`, drop a possibly
partial first line when the window start is strictly inside the file, and
return the remainder as the initial history chunk. -/
def tailPrime (content : List Nat) : List Nat :=
  let s := content.length - TAIL_BOOT_BYTES
  let rest := content.drop s
  if 0 < s then dropLine rest else rest

/-- One iteration of the follow loop of `tail_many` for one file
(rcon_ui.py:107-116).  `file = none` models a vanished file: the
`FileNotFoundError` handler just `pass`es, so the cursor is unchanged and
nothing is emitted.  Otherwise the handle seeks to the cursor and reads to
EOF; the cursor is updated (to `f.tell()`, i.e. the file length) only when
the read returned data.  Returns (new cursor, emitted bytes). -/
def tailFollowStep (file : Option (List Nat)) (off : Nat) : Nat × List Nat :=
  match file with
  | none => (off, [])
  | some content =>
    let data := content.drop off
    if data = [] then (off, []) else (content.length, data)

/- ─────────────── PID helpers and stop (mc_panel/servers.py) ─────────────── -/

/-- State of one server directory as far as the PID code observes it:
the PID file's content (if the file exists) and the OS process-liveness
oracle (`_proc_is_running`, i.e. `is_running() and status() != ZOMBIE`,
with every psutil failure mapped to `false`). -/
structure SrvState where
  pidFile : Option String
  alive : Int → Bool

/-- ASCII whitespace stripped by Python's `str.strip()` (the source only ever
writes ASCII digits plus a trailing newline into the PID file). -/
def isPyWS (c : Char) : Bool :=
  c = ' ' || c = '\t' || c = '\n' || c = '\r' || c = '\x0b' || c = '\x0c'

/-- Model of `str.strip()` on a character list. -/
def pyStrip (l : List Char) : List Char :=
  ((l.dropWhile isPyWS).reverse.dropWhile isPyWS).reverse

/-- Tail of a CPython decimal-literal digit run: digits with single
underscores allowed only between digits. -/
def digTail : List Char → Bool
  | [] => true
  | '_' :: c :: rest => c.isDigit && digTail rest
  | c :: rest => c.isDigit && digTail rest

/-- Nonempty digit run (with CPython's underscore rule) — the body accepted
by `int()` after an optional sign. -/
def digBody : List Char → Bool
  | [] => false
  | c :: rest => c.isDigit && digTail rest

/-- Numeric value of a digit run, ignoring underscores. -/
def digVal (l : List Char) : Nat :=
  l.foldl (fun acc c => if c = '_' then acc else acc * 10 + (c.toNat - 48)) 0

/-- Python `int(str)` on ASCII input: strip whitespace, optional sign, then a
digit run; any other shape raises `ValueError`, modelled as `none`. -/
def pyInt (s : List Char) : Option Int :=
  match pyStrip s with
  | '+' :: rest => if digBody rest then some (digVal rest : Int) else none
  | '-' :: rest => if digBody rest then some (-(digVal rest : Int)) else none
  | rest => if digBody rest then some (digVal rest : Int) else none

/-- Embedding of `read_pid` (servers.py:21-28): `none` when the PID file is absent;
otherwise `int(content.strip() or "0")`, with the `except` clause mapping a
parse failure to `none`.  Empty or whitespace-only content therefore yields
`some 0`. -/
def read_pid (pidFile : Option String) : Option Int :=
  match pidFile with
  | none => none
  | some s =>
    let t := pyStrip s.data
    pyInt (if t = [] then ['0'] else t)

/-- Embedding of `running` (servers.py:38-49): a falsy pid (`None` from a parse failure, or
`0`) returns `false` without touching the file; a live pid returns `true`;
a dead pid deletes the stale PID file and returns `false`.  Returns
(result, state after the call). -/
def running (st : SrvState) : Bool × SrvState :=
  match read_pid st.pidFile with
  | none => (false, st)
  | some p =>
    if p = 0 then (false, st)
    else if st.alive p then (true, st)
    else (false, { st with pidFile := none })

/-- Embedding of `stop` (servers.py:247-287): a falsy pid short-circuits to
`"Not running."` with no filesystem change.  Otherwise the signal deliveries
(SIGTERM/SIGKILL to pid and process group, every failure swallowed) have no
modelled filesystem effect, the PID file is unconditionally unlinked, and the
result is `"Stopped."`.  The `force` flag only affects signal escalation,
which is outside the modelled state. -/
def stop (st : SrvState) (force : Bool) : String × SrvState :=
  match read_pid st.pidFile with
  | none => ("Not running.", st)
  | some p =>
    if p = 0 then ("Not running.", st)
    else ("Stopped.", { st with pidFile := none })

/- ─────────────── Jar discovery (mc_panel/servers.py:53-70) ─────────────── -/

/-- ASCII lowering of one character, as `str.lower()` acts on the ASCII
range (all artifact names in the source are ASCII). -/
def lowChar (c : Char) : Char :=
  if 'A' ≤ c ∧ c ≤ 'Z' then Char.ofNat (c.toNat + 32) else c

/-- Model of `str.lower()` on ASCII strings. -/
def lowerStr (s : String) : String := ⟨s.data.map lowChar⟩

/-- Python's substring test `needle in hay` on character lists. -/
def listContains (hay needle : List Char) : Bool :=
  (List.range (hay.length + 1)).any fun i => needle.isPrefixOf (hay.drop i)

/-- Python's substring test `needle in hay` on strings. -/
def strContains (hay needle : String) : Bool := listContains hay.data needle.data

/-- Python `s.endswith(suf)`. -/
def endsWithS (s suf : String) : Bool := suf.data.isSuffixOf s.data

/-- Python `s.startswith(p)`. -/
def startsWithS (s p : String) : Bool := p.data.isPrefixOf s.data

/-- The jar filter of `_find_jar` (servers.py:54-56): a name is acceptable
when, lowercased, it ends in `.jar` and contains none of the substrings
`installer`, `install`, `shim`, `client`. -/
def is_server_jar (name : String) : Bool :=
  let low := lowerStr name
  endsWithS low ".jar" && !strContains low "installer" && !strContains low "install" &&
    !strContains low "shim" && !strContains low "client"

/-- Lexicographic code-point order on character lists — the order Python's
`sorted` uses on `str`. -/
def lexLt : List Char → List Char → Bool
  | [], [] => false
  | [], _ :: _ => true
  | _ :: _, [] => false
  | a :: as, b :: bs => if a < b then true else if b < a then false else lexLt as bs

/-- Ascending insertion for the model of `sorted(jars)`. -/
def insortName (x : String) : List String → List String
  | [] => [x]
  | y :: ys => if lexLt y.data x.data then y :: insortName x ys else x :: y :: ys

/-- Model of Python `sorted` on filename lists (only the ascending-order and
permutation properties are relied on). -/
def sortNames (l : List String) : List String := l.foldr insortName []

/-- The preference loop of `_find_jar` (servers.py:66-69): first preference
winning, first matching jar in sorted order within one preference. -/
def prefPick : List String → List String → Option String
  | [], _ => none
  | fav :: favs, jars =>
    match jars.find? (fun j => startsWithS j fav) with
    | some j => some j
    | none => prefPick favs jars

/-- Embedding of `_find_jar` (servers.py:53-70) over the server directory's file listing:
the two Fabric launcher names win outright (when present and acceptable);
otherwise the acceptable `*.jar` names are sorted and searched by the prefix
preference list, falling back to the first sorted jar. -/
def _find_jar (files : List String) : Option String :=
  if files.contains "fabric-server-launch.jar" && is_server_jar "fabric-server-launch.jar" then
    some "fabric-server-launch.jar"
  else if files.contains "fabric-server-launcher.jar" &&
      is_server_jar "fabric-server-launcher.jar" then
    some "fabric-server-launcher.jar"
  else
    let jars := sortNames (files.filter fun n => endsWithS n ".jar" && is_server_jar n)
    match prefPick ["forge-", "neoforge-", "minecraft_server", "server"] jars with
    | some j => some j
    | none => jars.head?

/- ─────────────── start and its liveness confirmation (servers.py:119-244) ─────────────── -/

/-- One process-table row as the fallback scan sees it: its pid, whether
`"java"` occurs in the lowercased process name, and whether its working
directory equals the server directory. -/
structure ScanEntry where
  pid : Int
  javaName : Bool
  cwdIsD : Bool

/-- The fallback scan of `_poll_pid_or_detect` (servers.py:128-142): walk the
process table keeping the last java process whose cwd is the server
directory; a falsy best (absent, or pid 0) yields `none`. -/
def scanDetect (procs : List ScanEntry) : Option Int :=
  match procs.foldl (fun best q => if q.javaName && q.cwdIsD then some q.pid else best) none with
  | some b => if b ≠ 0 then some b else none
  | none => none

/-- The bounded polling loop of `_poll_pid_or_detect` (servers.py:120-125):
at each 0.25s tick `t` (discretised; `fuel` ticks fit in the timeout) read
the PID file; a truthy pid that is alive is returned at once, otherwise the
loop sleeps and retries until the fuel is exhausted. -/
def pollPid (pidSeq : Nat → Option Int) (alive : Int → Bool) : Nat → Nat → Option Int
  | _, 0 => none
  | t, fuel + 1 =>
    match pidSeq t with
    | some p => if p ≠ 0 ∧ alive p = true then some p else pollPid pidSeq alive (t + 1) fuel
    | none => pollPid pidSeq alive (t + 1) fuel

/-- Environment of one `start` call: platform flags, which launch scripts
exist, the entry liveness check, the pid `Popen` returned, the directory
listing, the PID-file readings over poll ticks, the process liveness oracle
and the process table. -/
structure StartEnv where
  isWindows : Bool
  startShExists : Bool
  runShExists : Bool
  startBatExists : Bool
  alreadyRunning : Bool
  spawnPid : Int
  files : List String
  pidSeq : Nat → Option Int
  alive : Int → Bool
  procs : List ScanEntry

/-- Embedding of `_poll_pid_or_detect` (servers.py:119-145): bounded poll, then one-shot
process-table scan. -/
def _poll_pid_or_detect (e : StartEnv) (fuel : Nat) : Option Int :=
  match pollPid e.pidSeq e.alive 0 fuel with
  | some p => some p
  | none => scanDetect e.procs

/-- Embedding of `start` (servers.py:149-244), outcome string only.  On POSIX a present
`run.sh` gets a `start.sh` wrapper, so the script path is taken whenever
either exists; it polls 12s (48 ticks) and reports `"Started."` iff the
poll-or-scan confirmed a pid or the spawned script process itself is still
alive, else the degraded `"Started (pid pending)."`.  The Windows `start.bat`
path is the same with an 8s (32 tick) poll.  Otherwise the direct-jar path
returns the NotFound message when `_find_jar` finds nothing, and
unconditionally `"Started."` (after `sleep(1.0)`, no liveness check) when a
jar was launched. -/
def start (e : StartEnv) : String :=
  if e.alreadyRunning then "Already running."
  else if !e.isWindows && (e.startShExists || e.runShExists) then
    if (_poll_pid_or_detect e 48).isSome || e.alive e.spawnPid then "Started."
    else "Started (pid pending)."
  else if e.isWindows && e.startBatExists then
    if (_poll_pid_or_detect e 32).isSome || e.alive e.spawnPid then "Started."
    else "Started (pid pending)."
  else
    match _find_jar e.files with
    | none => "No server jar found. Try reinstalling or check the server pack."
    | some _ => "Started."

/- ─────────────── RCON client (Archive/mc_panel/rcon.py) ─────────────── -/

/-- Model of `struct.pack("<i", n)`: the four little-endian bytes of a 32-bit signed
integer. -/
def bytesOfI32 (n : Int) : List Nat :=
  let u := (n % 4294967296).toNat
  [u % 256, u / 256 % 256, u / 65536 % 256, u / 16777216 % 256]

/-- Model of `struct.unpack("<i", b)`: decode four little-endian bytes as a 32-bit
signed integer. -/
def i32ofBytes (b : List Nat) : Int :=
  let u := b.getD 0 0 + 256 * b.getD 1 0 + 65536 * b.getD 2 0 + 16777216 * b.getD 3 0
  if u < 2147483648 then (u : Int) else (u : Int) - 4294967296

/-- Embedding of `_pack` (rcon.py:6-8): body bytes (the UTF-8 encoding of the Python
string) framed as request id, type, body, two NUL bytes, all behind a
little-endian length prefix counting every byte after itself. -/
def _pack (reqId kind : Int) (body : List Nat) : List Nat :=
  let data := bytesOfI32 reqId ++ bytesOfI32 kind ++ body ++ [0, 0]
  bytesOfI32 (data.length : Int) ++ data

/-- One `sock.recv n` against a stream of delivered chunks: a closed/ended
stream yields `b""`; otherwise up to `n` bytes of the first pending chunk
are returned and the unread remainder stays queued.  The chunk list encodes
one realised way the network hands the bytes over, so quantifying over chunk
lists quantifies over the ways a frame can be split across reads. -/
def recvOnce (n : Nat) (s : List (List Nat)) : List Nat × List (List Nat) :=
  match s with
  | [] => ([], [])
  | c :: rest => if c.length ≤ n then (c, rest) else (c.take n, c.drop n :: rest)

/-- The body loop of `_recv` (rcon.py:15-20): keep calling `recv` for the
missing byte count, failing (`ConnectionError("RCON closed")`, modelled
`none`) on an empty read, until `need` bytes are assembled. -/
def recvLoop : Nat → List (List Nat) → Option (List Nat × List (List Nat))
  | 0, s => some ([], s)
  | _ + 1, [] => none
  | need + 1, c :: rest =>
    if c.length ≤ need + 1 then
      if c = [] then none
      else
        match recvLoop (need + 1 - c.length) rest with
        | none => none
        | some (bs, s2) => some (c ++ bs, s2)
    else some (c.take (need + 1), c.drop (need + 1) :: rest)

/-- Embedding of `_recv` (rcon.py:10-23): a single `recv 4` for the length prefix — fewer
than 4 bytes raises `ConnectionError("RCON short read")` (`none`) — then the
body loop for the declared length, then `(requestId, type, body)` where the
body is everything after the first 8 bytes minus the two trailing NUL bytes
(a body shorter than the 8 header bytes makes `struct.unpack` raise, also
`none`).  Returns the parsed triple and the unread remainder of the
stream. -/
def _recv (s : List (List Nat)) : Option ((Int × Int × List Nat) × List (List Nat)) :=
  let r := recvOnce 4 s
  if r.1.length < 4 then none
  else
    match recvLoop (i32ofBytes r.1).toNat r.2 with
    | none => none
    | some (data, s2) =>
      if data.length < 8 then none
      else
        some ((i32ofBytes (data.take 4), i32ofBytes ((data.drop 4).take 4),
          (data.drop 8).dropLast.dropLast), s2)

/-- The two failure modes of one `RconClient.command` call: a framing or
connection failure, and the authentication failure (`PermissionError`) for a
reply with request id `-1`. -/
inductive RconError where
  | connFailed
  | authFailed
deriving DecidableEq

/-- Embedding of `RconClient.command` (rcon.py:32-41) against a reply stream `s`:
send the Auth packet (`_pack 1 3 password`), read one reply; request id `-1`
raises the permission error with no further packet sent; otherwise send the
ExecCommand packet (`_pack 2 2 cmd`), read one reply, and return its body.
Result: (packets sent in order, outcome).  `password` and `cmd` are the
UTF-8 bytes of the Python strings. -/
def RconClient.command (password cmd : List Nat) (s : List (List Nat)) :
    List (List Nat) × Except RconError (List Nat) :=
  match _recv s with
  | none => ([_pack 1 3 password], Except.error RconError.connFailed)
  | some ((rid, _kind, _body), s1) =>
    if rid = -1 then ([_pack 1 3 password], Except.error RconError.authFailed)
    else
      match _recv s1 with
      | none => ([_pack 1 3 password, _pack 2 2 cmd], Except.error RconError.connFailed)
      | some ((_r2, _k2, body), _s2) => ([_pack 1 3 password, _pack 2 2 cmd], Except.ok body)

/- ─────────────── Progress tracker (mc_panel/installers.py:123-143) ─────────────── -/

/-- The tracker's mutable state: committed base fraction and current stage
weight.  Python floats are modelled as rationals; the caller-supplied sink
is modelled by returning the emitted percentage. -/
structure Progress where
  base : ℚ
  weight : ℚ

/-- The clamp `max(0.0, min(1.0, x))` as used on both weights and ratios. -/
def clamp01 (x : ℚ) : ℚ := max 0 (min 1 x)

/-- Python's built-in `round` to an integer: nearest integer, ties to the
even one (banker's rounding).  `int(round(x))` equals `round(x)` since
one-argument `round` already returns an int. -/
def pyRound (q : ℚ) : ℤ :=
  if q - ⌊q⌋ < 1 / 2 then ⌊q⌋
  else if 1 / 2 < q - ⌊q⌋ then ⌊q⌋ + 1
  else if ⌊q⌋ % 2 = 0 then ⌊q⌋ else ⌊q⌋ + 1

/-- Embedding of `Progress.start` (installers.py:129-132) without a message: clamp and
install the stage weight (a message would additionally emit ratio 0). -/
def Progress.start (pr : Progress) (w : ℚ) : Progress :=
  { pr with weight := clamp01 w }

/-- Embedding of `Progress.emit` (installers.py:134-137): the percentage handed to the
sink, `int(round((base + weight * clamp(ratio)) * 100))`; `emit` never
mutates the tracker. -/
def Progress.emit (pr : Progress) (ratio : ℚ) : ℤ :=
  pyRound ((pr.base + pr.weight * clamp01 ratio) * 100)

/-- Embedding of `Progress.end` (installers.py:139-143) without a message (named
`endStage` because `end` is a Lean keyword): commit
`base := min 1 (base + weight)` and reset the weight. -/
def Progress.endStage (pr : Progress) : Progress :=
  { base := min 1 (pr.base + pr.weight), weight := 0 }

/- ───────────────────────── Theorems ───────────────────────── -/

/-- Helper for claim C9: `dropLine` either consumes the whole list (no newline
found) or removes a prefix ending at the first newline byte. -/
lemma dropLine_sfx (l : List Nat) : dropLine l = [] ∨ ∃ p, l = p ++ 10 :: dropLine l := by
  induction l with
  | nil => exact Or.inl rfl
  | cons c t ih =>
    by_cases hc : c = 10
    · subst hc
      exact Or.inr ⟨[], by simp [dropLine]⟩
    · rw [show dropLine (c :: t) = dropLine t from by simp [dropLine, hc]]
      rcases ih with h0 | ⟨p, hp⟩
      · exact Or.inl h0
      · refine Or.inr ⟨c :: p, ?_⟩
        conv_lhs => rw [hp]
        simp

/-- Claim C9 (confirmed): on attach, a file no larger than the boot window is
delivered whole; a larger file yields a chunk that is a suffix of the file
starting immediately after a newline whose position is at or after
`fileSize - TAIL_BOOT_BYTES` (or the empty chunk when the window holds no
newline at all), so no byte from before the window is ever delivered. -/
theorem tail_prime_window (content : List Nat) :
    (content.length ≤ TAIL_BOOT_BYTES → tailPrime content = content) ∧
    (TAIL_BOOT_BYTES < content.length →
      tailPrime content = [] ∨
      ∃ pre, content = pre ++ 10 :: tailPrime content ∧
        content.length - TAIL_BOOT_BYTES ≤ pre.length) := by
  constructor
  · intro h
    have hs : content.length - TAIL_BOOT_BYTES = 0 := Nat.sub_eq_zero_of_le h
    simp [tailPrime, hs]
  · intro h
    have hs : 0 < content.length - TAIL_BOOT_BYTES := by omega
    have hrw : tailPrime content = dropLine (content.drop (content.length - TAIL_BOOT_BYTES)) := by
      simp [tailPrime, hs]
    rw [hrw]
    rcases dropLine_sfx (content.drop (content.length - TAIL_BOOT_BYTES)) with h0 | ⟨p, hp⟩
    · exact Or.inl h0
    · refine Or.inr ⟨content.take (content.length - TAIL_BOOT_BYTES) ++ p, ?_, ?_⟩
      · conv_lhs => rw [← List.take_append_drop (content.length - TAIL_BOOT_BYTES) content, hp]
        simp
      · rw [List.length_append, List.length_take]
        omega

/-- Witness for claim C9's theorem at a concrete small file. -/
theorem tail_prime_window_witness : tailPrime [72, 10, 105] = [72, 10, 105] :=
  (tail_prime_window [72, 10, 105]).1 (by decide)

/-- Claim C3 counterexample: after the tracked file vanishes, a follow
iteration at cursor 7 keeps the cursor at 7 (it is not reset to 0), and a
file shrunk to 2 bytes below a cursor of 9 likewise keeps the cursor at 9. -/
theorem followStep_vanish_cex :
    tailFollowStep none 7 = (7, []) ∧
    tailFollowStep (some [65, 66]) 9 = (9, []) ∧
    (7 : Nat) ≠ 0 ∧ (9 : Nat) ≠ 0 := by
  decide

/-- Claim C3 (amended): if a follow-loop read finds the file vanished, the
iteration is skipped without error and the cursor is kept unchanged (not
reset to 0); if the file shrank to or below the cursor, the read returns no
data and the cursor is likewise unchanged; only a read that actually returns
data advances the cursor (to the file end). -/
theorem followStep_cursor (off : Nat) :
    (tailFollowStep none off = (off, [])) ∧
    (∀ content : List Nat, content.length ≤ off →
      tailFollowStep (some content) off = (off, [])) ∧
    (∀ content : List Nat, content.drop off ≠ [] →
      tailFollowStep (some content) off = (content.length, content.drop off)) := by
  refine ⟨rfl, ?_, ?_⟩
  · intro content h
    simp [tailFollowStep, List.drop_eq_nil_of_le h]
  · intro content h
    simp [tailFollowStep, h]

/-- Witness for claim C3's amended theorem: a file of 2 bytes read at
cursor 5 leaves the cursor at 5. -/
theorem followStep_cursor_witness : tailFollowStep (some [65, 66]) 5 = (5, []) :=
  (followStep_cursor 5).2.1 [65, 66] (by decide)

/-- Claim C1 counterexample: with a PID file naming the dead process 12345
(an already-stopped server with a stale file), `stop` returns `"Stopped."`,
not the NotRunning outcome the claim requires — though the stale file is
indeed removed. -/
theorem stop_stale_cex :
    (stop ⟨some "12345", fun _ => false⟩ false).1 = "Stopped." ∧
    "Stopped." ≠ "Not running." ∧
    (stop ⟨some "12345", fun _ => false⟩ false).2.pidFile = none := by
  refine ⟨by decide, by decide, by decide⟩

/-- Claim C1 (amended): `stop` returns `"Not running."` — leaving the state
untouched, including any unparseable or zero-content PID file — exactly when
`read_pid` yields no usable pid (file absent, unparseable, or pid 0); when
the PID file names a parseable nonzero pid, dead or alive, `stop` returns
`"Stopped."` and removes the PID file, so no stale PID file survives the
call in that case. -/
theorem stop_outcomes (st : SrvState) (force : Bool) :
    ((read_pid st.pidFile = none ∨ read_pid st.pidFile = some 0) →
      stop st force = ("Not running.", st)) ∧
    (∀ p : Int, read_pid st.pidFile = some p → p ≠ 0 →
      stop st force = ("Stopped.", { st with pidFile := none })) := by
  constructor
  · rintro (h | h) <;> simp [stop, h]
  · intro p hp hne
    simp [stop, hp, hne]

/-- Witness for claim C1's amended theorem: absent PID file. -/
theorem stop_outcomes_witness :
    stop ⟨none, fun _ => false⟩ false = ("Not running.", ⟨none, fun _ => false⟩) :=
  (stop_outcomes ⟨none, fun _ => false⟩ false).1 (Or.inl (by decide))

/-- Claim C5 (confirmed): when the PID file parses to a nonzero pid whose
process is not alive (which includes zombies, since `_proc_is_running`
treats a zombie as not running), `running` returns `false` and deletes the
stale PID file in the same call; consequently, after any `running` probe the
surviving PID file never names a dead nonzero pid. -/
theorem running_stale_cleanup (st : SrvState) :
    (∀ p : Int, read_pid st.pidFile = some p → p ≠ 0 → st.alive p = false →
      running st = (false, { st with pidFile := none })) ∧
    (∀ p : Int, read_pid (running st).2.pidFile = some p → p ≠ 0 →
      st.alive p = true) := by
  constructor
  · intro p hp hne hdead
    simp [running, hp, hne, hdead]
  · intro p hp hne
    cases hr : read_pid st.pidFile with
    | none => simp [running, hr] at hp
    | some q =>
      by_cases h0 : q = 0
      · subst h0
        simp [running, hr] at hp
        exact absurd (by omega : p = 0) hne
      · by_cases hl : st.alive q = true
        · simp [running, hr, h0, hl] at hp
          subst hp
          exact hl
        · have hrun : running st = (false, { st with pidFile := none }) := by
            simp [running, hr, h0, hl]
          rw [hrun] at hp
          simp [read_pid] at hp

/-- Witness for claim C5's theorem: PID file `"7"`, process 7 dead. -/
theorem running_stale_cleanup_witness :
    running ⟨some "7", fun _ => false⟩ = (false, ⟨none, fun _ => false⟩) :=
  (running_stale_cleanup ⟨some "7", fun _ => false⟩).1 7 (by decide) (by decide) rfl

/-- Claim C10 (confirmed): `read_pid` is total in the embedding — a caught
parse failure is the `none` value, so nothing is raised; empty (or
whitespace-only) content yields pid 0; with a `none`-or-zero pid, `running`
returns `false` and leaves the state (including the malformed PID file)
untouched; and the only way `running` changes the state is deleting the file
of a parseable nonzero pid whose process is dead. -/
theorem read_pid_total_running (st : SrvState) :
    (read_pid (some "") = some 0) ∧
    (read_pid (some " \n") = some 0) ∧
    (read_pid (some "12a") = none) ∧
    ((read_pid st.pidFile = none ∨ read_pid st.pidFile = some 0) →
      running st = (false, st)) ∧
    ((running st).2 ≠ st →
      ∃ p : Int, read_pid st.pidFile = some p ∧ p ≠ 0 ∧ st.alive p = false ∧
        running st = (false, { st with pidFile := none })) := by
  refine ⟨by decide, by decide, by decide, ?_, ?_⟩
  · rintro (h | h) <;> simp [running, h]
  · intro hch
    cases hr : read_pid st.pidFile with
    | none => exact absurd (by simp [running, hr]) hch
    | some q =>
      by_cases h0 : q = 0
      · subst h0
        exact absurd (by simp [running, hr]) hch
      · by_cases hl : st.alive q = true
        · exact absurd (by simp [running, hr, h0, hl]) hch
        · have hl' : st.alive q = false := by
            cases hq : st.alive q
            · rfl
            · exact absurd hq hl
          exact ⟨q, rfl, h0, hl', by simp [running, hr, h0, hl]⟩

/-- Witness for claim C10's theorem: a malformed PID file survives a probe
that returns false. -/
theorem read_pid_total_running_witness :
    running ⟨some "x!", fun _ => true⟩ = (false, ⟨some "x!", fun _ => true⟩) :=
  (read_pid_total_running ⟨some "x!", fun _ => true⟩).2.2.2.1 (Or.inl (by decide))

/-- Helper for claim C6: `pyRound` is bounded below by the floor. -/
lemma pyRound_ge_floor (q : ℚ) : ⌊q⌋ ≤ pyRound q := by
  unfold pyRound
  split_ifs <;> omega

/-- Helper for claim C6: `pyRound` is bounded above by the floor plus one. -/
lemma pyRound_le_floor_succ (q : ℚ) : pyRound q ≤ ⌊q⌋ + 1 := by
  unfold pyRound
  split_ifs <;> omega

/-- Helper for claim C6: Python's banker's rounding is monotone. -/
lemma pyRound_mono {q r : ℚ} (h : q ≤ r) : pyRound q ≤ pyRound r := by
  rcases lt_or_eq_of_le (Int.floor_mono h) with hf | hf
  · calc pyRound q ≤ ⌊q⌋ + 1 := pyRound_le_floor_succ q
      _ ≤ ⌊r⌋ := by omega
      _ ≤ pyRound r := pyRound_ge_floor r
  · unfold pyRound
    rw [← hf]
    have hq : (⌊q⌋ : ℚ) ≤ q := Int.floor_le q
    split_ifs <;> first | omega | linarith

/-- Helper for claim C6: the clamp is nonnegative. -/
lemma clamp01_nonneg (x : ℚ) : 0 ≤ clamp01 x := le_max_left 0 _

/-- Helper for claim C6: the clamp is monotone. -/
lemma clamp01_mono {x y : ℚ} (h : x ≤ y) : clamp01 x ≤ clamp01 y :=
  max_le_max le_rfl (min_le_min le_rfl h)

/-- Claim C6 (confirmed): for `start(weight) → emit(r1) → emit(r2) → end()`
with `r1 ≤ r2` (no stage labels, so exactly the two emits reach the sink),
the two emitted percentages are non-decreasing, and after `end()` the base
equals the prior base plus the clamped stage weight, itself clamped at 1,
with the weight reset to 0. -/
theorem progress_stage_monotone (pr : Progress) (w r1 r2 : ℚ) (h : r1 ≤ r2) :
    (pr.start w).emit r1 ≤ (pr.start w).emit r2 ∧
    (pr.start w).endStage.base = min 1 (pr.base + clamp01 w) ∧
    (pr.start w).endStage.weight = 0 := by
  refine ⟨?_, rfl, rfl⟩
  simp only [Progress.emit, Progress.start]
  apply pyRound_mono
  have hw : 0 ≤ clamp01 w := clamp01_nonneg w
  have hm : clamp01 r1 ≤ clamp01 r2 := clamp01_mono h
  nlinarith [mul_le_mul_of_nonneg_left hm hw]

/-- Witness for claim C6's theorem at base 0, weight 1/2, ratios 0 ≤ 1. -/
theorem progress_stage_monotone_witness :
    ((Progress.mk 0 0).start (1 / 2)).emit 0 ≤ ((Progress.mk 0 0).start (1 / 2)).emit 1 ∧
    ((Progress.mk 0 0).start (1 / 2)).endStage.base =
      min 1 ((Progress.mk 0 0).base + clamp01 (1 / 2)) ∧
    ((Progress.mk 0 0).start (1 / 2)).endStage.weight = 0 :=
  progress_stage_monotone (Progress.mk 0 0) (1 / 2) 0 1 (by norm_num)

/-- Claim C4 (confirmed): when the Auth reply parses with request id `-1`,
`RconClient.command` fails with the permission error having sent only the
Auth packet — the ExecCommand packet is never sent; with any other request
id it sends exactly one ExecCommand packet `_pack 2 2 cmd` after the Auth
packet and returns the second reply's payload. -/
theorem rcon_command_auth (password cmd : List Nat) (rid kind : Int) (body : List Nat)
    (s s1 : List (List Nat)) (h : _recv s = some ((rid, kind, body), s1)) :
    (rid = -1 → RconClient.command password cmd s =
      ([_pack 1 3 password], Except.error RconError.authFailed)) ∧
    (rid ≠ -1 → ∀ (rid2 kind2 : Int) (body2 : List Nat) (s2 : List (List Nat)),
      _recv s1 = some ((rid2, kind2, body2), s2) →
      RconClient.command password cmd s =
        ([_pack 1 3 password, _pack 2 2 cmd], Except.ok body2)) := by
  constructor
  · intro hrid
    simp [RconClient.command, h, hrid]
  · intro hrid rid2 kind2 body2 s2 h2
    simp [RconClient.command, h, hrid, h2]

/-- Witness for claim C4's theorem: a mock Auth reply with request id `-1`
makes the call fail with the permission error after only the Auth packet. -/
theorem rcon_command_auth_witness :
    RconClient.command [112] [108] [_pack (-1) 2 []] =
      ([_pack 1 3 [112]], Except.error RconError.authFailed) :=
  (rcon_command_auth [112] [108] (-1) 2 [] [_pack (-1) 2 []] [] (by decide)).1 rfl

/-- Helper for claim C2: the body loop on a stream of nonempty chunks holding
at least `need` bytes returns exactly the first `need` bytes of the stream's
byte sequence (with some remainder stream). -/
lemma recvLoop_take (cs : List (List Nat)) : ∀ need : Nat,
    (∀ c ∈ cs, c ≠ []) → need ≤ cs.flatten.length →
    ∃ s2, recvLoop need cs = some (cs.flatten.take need, s2) := by
  induction cs with
  | nil =>
    intro need _ hle
    simp only [List.flatten_nil, List.length_nil, Nat.le_zero] at hle
    subst hle
    exact ⟨[], rfl⟩
  | cons c rest ih =>
    intro need hne hle
    match need with
    | 0 => exact ⟨c :: rest, rfl⟩
    | m + 1 =>
      have hc : c ≠ [] := hne c (List.mem_cons_self c rest)
      rw [List.flatten_cons] at hle ⊢
      rw [List.length_append] at hle
      by_cases hlen : c.length ≤ m + 1
      · have hrest : ∀ x ∈ rest, x ≠ [] := fun x hx => hne x (List.mem_cons_of_mem c hx)
        obtain ⟨s2, hs2⟩ := ih (m + 1 - c.length) hrest (by omega)
        refine ⟨s2, ?_⟩
        show (if c.length ≤ m + 1 then
            if c = [] then none
            else
              match recvLoop (m + 1 - c.length) rest with
              | none => none
              | some (bs, s3) => some (c ++ bs, s3)
          else some (c.take (m + 1), c.drop (m + 1) :: rest)) = _
        rw [if_pos hlen, if_neg hc, hs2, List.take_append_eq_append_take,
          List.take_of_length_le hlen]
      · push_neg at hlen
        refine ⟨c.drop (m + 1) :: rest, ?_⟩
        show (if c.length ≤ m + 1 then
            if c = [] then none
            else
              match recvLoop (m + 1 - c.length) rest with
              | none => none
              | some (bs, s3) => some (c ++ bs, s3)
          else some (c.take (m + 1), c.drop (m + 1) :: rest)) = _
        rw [if_neg (by omega), List.take_append_of_le_length (by omega)]

/-- Helper for claim C2: an encoded int32 is 4 bytes. -/
lemma bytesOfI32_length (n : Int) : (bytesOfI32 n).length = 4 := rfl

/-- Helper for claim C2: decoding after encoding is the identity on the
int32 range. -/
lemma i32_roundtrip (n : Int) (hlo : -2147483648 ≤ n) (hhi : n < 2147483648) :
    i32ofBytes (bytesOfI32 n) = n := by
  have h0 : 0 ≤ n % 4294967296 := Int.emod_nonneg n (by norm_num)
  have h3 : n % 4294967296 < 4294967296 := Int.emod_lt_of_pos n (by norm_num)
  have key : ∀ u : Nat, u < 4294967296 →
      i32ofBytes [u % 256, u / 256 % 256, u / 65536 % 256, u / 16777216 % 256] =
        if u < 2147483648 then (u : Int) else (u : Int) - 4294967296 := by
    intro u hu
    rw [show i32ofBytes [u % 256, u / 256 % 256, u / 65536 % 256, u / 16777216 % 256] =
        (if u % 256 + 256 * (u / 256 % 256) + 65536 * (u / 65536 % 256) +
            16777216 * (u / 16777216 % 256) < 2147483648 then
          ((u % 256 + 256 * (u / 256 % 256) + 65536 * (u / 65536 % 256) +
            16777216 * (u / 16777216 % 256) : Nat) : Int)
        else ((u % 256 + 256 * (u / 256 % 256) + 65536 * (u / 65536 % 256) +
          16777216 * (u / 16777216 % 256) : Nat) : Int) - 4294967296) from rfl]
    have hdec : u % 256 + 256 * (u / 256 % 256) + 65536 * (u / 65536 % 256) +
        16777216 * (u / 16777216 % 256) = u := by omega
    rw [hdec]
  rw [show bytesOfI32 n = [(n % 4294967296).toNat % 256, (n % 4294967296).toNat / 256 % 256,
      (n % 4294967296).toNat / 65536 % 256, (n % 4294967296).toNat / 16777216 % 256] from rfl]
  rw [key _ (by omega)]
  split_ifs <;> omega

/-- Helper for claim C2: total length of a packed frame. -/
lemma _pack_length (reqId kind : Int) (body : List Nat) :
    (_pack reqId kind body).length = body.length + 14 := by
  simp [_pack, bytesOfI32]

/-- Claim C2 counterexample: the 4-byte length prefix arriving in two
separate reads (2 bytes, then the rest) makes `_recv` raise the short-read
connection error, while the very same frame delivered in one read parses to
its triple — so splitting the prefix is not reassembled identically. -/
theorem recv_split_header_cex :
    _recv [(_pack 1 0 []).take 2, (_pack 1 0 []).drop 2] = none ∧
    _recv [_pack 1 0 []] = some ((1, 0, []), []) := by
  refine ⟨by decide, by decide⟩

/-- Claim C2 (amended): for every well-formed frame and every splitting of
its bytes into nonempty successive reads whose first read supplies at least
the 4 length-prefix bytes — the body may arrive in arbitrary pieces, down to
1-byte increments — `_recv` reassembles exactly the frame's
(requestId, type, payload) triple, the same value a single-read delivery
yields; a first read shorter than 4 bytes instead fails with the short-read
connection error. -/
theorem recv_reassembly (reqId kind : Int) (payload : List Nat) (cs : List (List Nat))
    (h1 : -2147483648 ≤ reqId) (h2 : reqId < 2147483648)
    (h3 : -2147483648 ≤ kind) (h4 : kind < 2147483648)
    (h5 : payload.length + 10 < 2147483648)
    (h6 : cs.flatten = _pack reqId kind payload)
    (h7 : ∀ c ∈ cs, c ≠ [])
    (h8 : 4 ≤ (cs.headD []).length) :
    (_recv cs).map Prod.fst = some (reqId, kind, payload) := by
  obtain ⟨c, rest, rfl⟩ : ∃ c rest, cs = c :: rest := by
    cases cs with
    | nil =>
      exfalso
      have hx := h6
      simp [_pack, bytesOfI32] at hx
    | cons c rest => exact ⟨c, rest, rfl⟩
  rw [List.flatten_cons] at h6
  simp only [List.headD_cons] at h8
  have hcne : c ≠ [] := h7 c (List.mem_cons_self c rest)
  have hrestne : ∀ x ∈ rest, x ≠ [] := fun x hx => h7 x (List.mem_cons_of_mem c hx)
  -- structure of the frame
  have hdlen : ((bytesOfI32 reqId ++ bytesOfI32 kind ++ payload ++ [0, 0]).length : Int) =
      (payload.length : Int) + 10 := by
    simp [bytesOfI32]
    omega
  have hD : _pack reqId kind payload = bytesOfI32 ((payload.length : Int) + 10) ++
      (bytesOfI32 reqId ++ bytesOfI32 kind ++ payload ++ [0, 0]) := by
    simp only [_pack]
    rw [hdlen]
  have hpre : (_pack reqId kind payload).take 4 = bytesOfI32 ((payload.length : Int) + 10) := by
    rw [hD, show (4 : Nat) = (bytesOfI32 ((payload.length : Int) + 10)).length from rfl]
    exact List.take_left _ _
  have hsuf : (_pack reqId kind payload).drop 4 =
      bytesOfI32 reqId ++ bytesOfI32 kind ++ payload ++ [0, 0] := by
    rw [hD, show (4 : Nat) = (bytesOfI32 ((payload.length : Int) + 10)).length from rfl]
    exact List.drop_left _ _
  -- the initial recv of the length prefix
  obtain ⟨s1, hro, hs1f, hs1ne⟩ :
      ∃ s1, recvOnce 4 (c :: rest) = ((c ++ rest.flatten).take 4, s1) ∧
        s1.flatten = (c ++ rest.flatten).drop 4 ∧ (∀ x ∈ s1, x ≠ []) := by
    by_cases hc4 : c.length ≤ 4
    · have hc4' : c.length = 4 := le_antisymm hc4 h8
      refine ⟨rest, ?_, ?_, hrestne⟩
      · have hre : recvOnce 4 (c :: rest) = (c, rest) := by simp [recvOnce, hc4]
        rw [hre, show (c ++ rest.flatten).take 4 = c from by
          rw [← hc4']; exact List.take_left c _]
      · rw [show (4 : Nat) = c.length from hc4'.symm]
        exact (List.drop_left c _).symm
    · push_neg at hc4
      refine ⟨c.drop 4 :: rest, ?_, ?_, ?_⟩
      · have hre : recvOnce 4 (c :: rest) = (c.take 4, c.drop 4 :: rest) := by
          simp only [recvOnce]
          rw [if_neg (by omega)]
        rw [hre, List.take_append_of_le_length (by omega)]
      · rw [List.flatten_cons, List.drop_append_of_le_length (by omega)]
      · intro x hx
        rcases List.mem_cons.mp hx with hx1 | hx2
        · subst hx1
          intro hemp
          have hle : (c.drop 4).length = c.length - 4 := List.length_drop 4 c
          rw [hemp] at hle
          simp at hle
          omega
        · exact hrestne x hx2
  rw [h6] at hro hs1f
  -- the body loop reads the whole remainder
  have hflen : s1.flatten.length = payload.length + 10 := by
    rw [hs1f, List.length_drop, _pack_length]
    omega
  have hln : i32ofBytes ((_pack reqId kind payload).take 4) = (payload.length : Int) + 10 := by
    rw [hpre]
    exact i32_roundtrip _ (by omega) (by omega)
  obtain ⟨s2, hs2⟩ := recvLoop_take s1 (payload.length + 10) hs1ne (by omega)
  have hdata : s1.flatten.take (payload.length + 10) = s1.flatten :=
    List.take_of_length_le (by omega)
  rw [hdata] at hs2
  -- pieces of the reassembled body
  have hbodyR : s1.flatten = bytesOfI32 reqId ++ (bytesOfI32 kind ++ (payload ++ [0, 0])) := by
    rw [hs1f, hsuf, List.append_assoc, List.append_assoc]
  have htk4 : s1.flatten.take 4 = bytesOfI32 reqId := by
    rw [hbodyR, show (4 : Nat) = (bytesOfI32 reqId).length from rfl]
    exact List.take_left _ _
  have hdrop4 : s1.flatten.drop 4 = bytesOfI32 kind ++ (payload ++ [0, 0]) := by
    rw [hbodyR, show (4 : Nat) = (bytesOfI32 reqId).length from rfl]
    exact List.drop_left _ _
  have hdr4 : (s1.flatten.drop 4).take 4 = bytesOfI32 kind := by
    rw [hdrop4, show (4 : Nat) = (bytesOfI32 kind).length from rfl]
    exact List.take_left _ _
  have hdr8 : s1.flatten.drop 8 = payload ++ [0, 0] := by
    rw [hbodyR, ← List.append_assoc (bytesOfI32 reqId) (bytesOfI32 kind),
      show (8 : Nat) = (bytesOfI32 reqId ++ bytesOfI32 kind).length from rfl]
    exact List.drop_left _ _
  have hdl : (payload ++ [0, 0]).dropLast.dropLast = payload := by
    rw [show payload ++ [0, 0] = (payload ++ [0]) ++ [0] from by simp,
      List.dropLast_concat, List.dropLast_concat]
  -- assemble `_recv`
  have hlen4 : ((_pack reqId kind payload).take 4).length = 4 := by
    rw [hpre]
    exact bytesOfI32_length _
  have hfin : _recv (c :: rest) = some ((reqId, kind, payload), s2) := by
    unfold _recv
    rw [hro]
    dsimp only
    rw [hlen4, if_neg (by omega), hln,
      show ((payload.length : Int) + 10).toNat = payload.length + 10 from by omega, hs2]
    dsimp only
    rw [hflen, if_neg (by omega), htk4, hdr4, hdr8, hdl,
      i32_roundtrip reqId h1 h2, i32_roundtrip kind h3 h4]
  rw [hfin]
  rfl

/-- Witness for claim C2's amended theorem: prefix in the first read, body
delivered in 1-byte reads, reassembling to the packed triple. -/
theorem recv_reassembly_witness :
    (_recv ([(_pack 1 0 [104, 105]).take 4] ++
      ((_pack 1 0 [104, 105]).drop 4).map (fun b => [b]))).map Prod.fst =
      some (1, 0, [104, 105]) :=
  recv_reassembly 1 0 [104, 105] _ (by decide) (by decide) (by decide) (by decide)
    (by decide) (by decide) (by decide) (by decide)

/-- Helper for claim C7: the bounded poll consults only the PID-file
readings of its `fuel` ticks — whatever happens after the timeout window
cannot influence it, so the wait cannot extend past its bound. -/
lemma pollPid_window (alive : Int → Bool) : ∀ (fuel t : Nat) (p1 p2 : Nat → Option Int),
    (∀ u, t ≤ u → u < t + fuel → p1 u = p2 u) →
    pollPid p1 alive t fuel = pollPid p2 alive t fuel := by
  intro fuel
  induction fuel with
  | zero => intro t p1 p2 _; rfl
  | succ m ih =>
    intro t p1 p2 hag
    have h0 : p1 t = p2 t := hag t le_rfl (by omega)
    simp only [pollPid]
    rw [h0]
    cases p2 t with
    | none => exact ih (t + 1) p1 p2 fun u hu1 hu2 => hag u (by omega) (by omega)
    | some q =>
      dsimp only
      by_cases hq : q ≠ 0 ∧ alive q = true
      · rw [if_pos hq, if_pos hq]
      · rw [if_neg hq, if_neg hq]
        exact ih (t + 1) p1 p2 fun u hu1 hu2 => hag u (by omega) (by omega)

/-- Claim C7 counterexample: on the direct-jar launch path (no launch script
anywhere) with a process that died instantly, the poll, the scan and the
direct liveness check all fail, yet `start` still reports `"Started."` — so
`Started` is not gated on a confirmed live identifier on every spawn path. -/
theorem start_jar_unconfirmed_cex :
    start { isWindows := false
            startShExists := false
            runShExists := false
            startBatExists := false
            alreadyRunning := false
            spawnPid := 77
            files := ["server.jar"]
            pidSeq := fun _ => none
            alive := fun _ => false
            procs := [] } = "Started." ∧
    _poll_pid_or_detect { isWindows := false
                          startShExists := false
                          runShExists := false
                          startBatExists := false
                          alreadyRunning := false
                          spawnPid := 77
                          files := ["server.jar"]
                          pidSeq := fun _ => none
                          alive := fun _ => false
                          procs := [] } 48 = none := by
  refine ⟨by decide, by decide⟩

/-- Claim C7 (amended): on the script paths `start` returns `"Started."`
exactly when the bounded 48-tick poll or the process-table scan confirmed an
identifier or the spawned script process itself is still alive, and
otherwise the degraded `"Started (pid pending)."`; on the direct-jar path it
returns `"Started."` with no confirmation at all; and the poll is determined
by its 48-tick window alone, so the confirmation wait cannot outlive its
bound. -/
theorem start_confirmation (e : StartEnv)
    (hnr : e.alreadyRunning = false) (hw : e.isWindows = false) :
    ((e.startShExists || e.runShExists) = true →
      ((start e = "Started." ↔
          ((_poll_pid_or_detect e 48).isSome || e.alive e.spawnPid) = true) ∧
        (start e = "Started (pid pending)." ↔
          (_poll_pid_or_detect e 48 = none ∧ e.alive e.spawnPid = false)))) ∧
    (e.startShExists = false → e.runShExists = false →
      ∀ j, _find_jar e.files = some j → start e = "Started.") ∧
    (∀ q : Nat → Option Int, (∀ u, u < 48 → e.pidSeq u = q u) →
      pollPid e.pidSeq e.alive 0 48 = pollPid q e.alive 0 48) := by
  refine ⟨?_, ?_, ?_⟩
  · intro hsh
    have hstart : start e = (if ((_poll_pid_or_detect e 48).isSome || e.alive e.spawnPid) = true
        then "Started." else "Started (pid pending).") := by
      simp [start, hnr, hw, hsh]
    by_cases hb : ((_poll_pid_or_detect e 48).isSome || e.alive e.spawnPid) = true
    · rw [hstart, if_pos hb]
      refine ⟨⟨fun _ => hb, fun _ => rfl⟩, ?_, ?_⟩
      · intro hcontra
        exact absurd hcontra (by decide)
      · rintro ⟨hnone, hal⟩
        exfalso
        rw [hnone, hal] at hb
        simp at hb
    · rw [hstart, if_neg hb]
      have h1 : (_poll_pid_or_detect e 48).isSome = false := by
        cases hiso : (_poll_pid_or_detect e 48).isSome
        · rfl
        · exact absurd (by rw [hiso]; rfl) hb
      have h2 : e.alive e.spawnPid = false := by
        cases hal : e.alive e.spawnPid
        · rfl
        · exact absurd (by rw [hal]; simp) hb
      refine ⟨⟨fun hcontra => absurd hcontra (by decide), fun h => absurd h hb⟩, ?_, ?_⟩
      · intro _
        exact ⟨Option.not_isSome_iff_eq_none.mp (by simp [h1]), h2⟩
      · intro _
        rfl
  · intro hsh1 hsh2 j hj
    simp [start, hnr, hw, hsh1, hsh2, hj]
  · intro q hq
    exact pollPid_window e.alive 48 0 e.pidSeq q fun u hu1 hu2 => hq u (by omega)

/-- Witness for claim C7's amended theorem: a script launch whose PID-file
poll confirms pid 5 on the first tick reports `"Started."`. -/
theorem start_confirmation_witness :
    start { isWindows := false
            startShExists := true
            runShExists := false
            startBatExists := false
            alreadyRunning := false
            spawnPid := 9
            files := []
            pidSeq := fun _ => some 5
            alive := fun p => decide (p = 5)
            procs := [] } = "Started." :=
  (((start_confirmation _ rfl rfl).1 (by decide)).1).mpr (by decide)

/-- Helper for claim C8: insertion keeps exactly the members. -/
lemma mem_insortName (a x : String) : ∀ l : List String,
    a ∈ insortName x l ↔ a = x ∨ a ∈ l := by
  intro l
  induction l with
  | nil => simp [insortName]
  | cons y ys ih =>
    by_cases h : lexLt y.data x.data
    · rw [show insortName x (y :: ys) = y :: insortName x ys from by simp [insortName, h]]
      simp [ih]
      tauto
    · rw [show insortName x (y :: ys) = x :: y :: ys from by simp [insortName, h]]
      simp

/-- Helper for claim C8: the sorted jar list has exactly the filtered
members. -/
lemma mem_sortNames (a : String) : ∀ l : List String, a ∈ sortNames l ↔ a ∈ l := by
  intro l
  induction l with
  | nil => simp [sortNames]
  | cons y ys ih =>
    rw [show sortNames (y :: ys) = insortName y (sortNames ys) from rfl,
      mem_insortName, ih]
    simp

/-- Helper for claim C8: whatever the preference loop picks is one of the
jars it searched. -/
lemma prefPick_mem (j : String) : ∀ ps jars : List String,
    prefPick ps jars = some j → j ∈ jars := by
  intro ps
  induction ps with
  | nil => intro jars h; simp [prefPick] at h
  | cons p ps ih =>
    intro jars h
    simp only [prefPick] at h
    cases hf : jars.find? fun x => startsWithS x p with
    | none =>
      rw [hf] at h
      exact ih jars h
    | some x =>
      rw [hf] at h
      injection h with h2
      subst h2
      exact List.mem_of_find?_eq_some hf

/-- Claim C8 (confirmed): `_find_jar` never returns a jar whose lowercased
name contains `installer` (installer-flagged artifacts are excluded by the
filter on every path); a present primary launcher artifact is always the
chosen target ahead of any generic fallback — `fabric-server-launch.jar`
outright, and `fabric-server-launcher.jar` whenever the former is absent;
and on either platform, when no launch script usable on that platform exists
and no acceptable jar is found, `start` reports the NotFound message (it
does not retry). -/
theorem find_jar_selection (files : List String) :
    (∀ j, _find_jar files = some j → strContains (lowerStr j) "installer" = false) ∧
    (files.contains "fabric-server-launch.jar" = true →
      _find_jar files = some "fabric-server-launch.jar") ∧
    (files.contains "fabric-server-launch.jar" = false →
      files.contains "fabric-server-launcher.jar" = true →
      _find_jar files = some "fabric-server-launcher.jar") ∧
    (∀ e : StartEnv, e.alreadyRunning = false → e.isWindows = false →
      e.startShExists = false → e.runShExists = false → _find_jar e.files = none →
      start e = "No server jar found. Try reinstalling or check the server pack.") ∧
    (∀ e : StartEnv, e.alreadyRunning = false → e.isWindows = true →
      e.startBatExists = false → _find_jar e.files = none →
      start e = "No server jar found. Try reinstalling or check the server pack.") := by
  refine ⟨?_, ?_, ?_, ?_, ?_⟩
  · intro j hj
    simp only [_find_jar] at hj
    split at hj
    · injection hj with h2
      subst h2
      decide
    · split at hj
      · injection hj with h2
        subst h2
        decide
      · have hmem : j ∈ sortNames (files.filter fun n =>
            endsWithS n ".jar" && is_server_jar n) := by
          split at hj
          · next heq =>
            injection hj with h2
            rw [← h2]
            exact prefPick_mem _ _ _ heq
          · cases hl : sortNames (files.filter fun n => endsWithS n ".jar" && is_server_jar n) with
            | nil => rw [hl] at hj; simp at hj
            | cons a l =>
              rw [hl] at hj
              injection hj with h2
              subst h2
              exact List.mem_cons_self a l
        rw [mem_sortNames] at hmem
        have hpred := (List.mem_filter.mp hmem).2
        rw [Bool.and_eq_true] at hpred
        have hsj : is_server_jar j = true := hpred.2
        simp only [is_server_jar, Bool.and_eq_true, Bool.not_eq_true'] at hsj
        exact hsj.1.1.1.2
  · intro hmem
    have hcond : (files.contains "fabric-server-launch.jar" &&
        is_server_jar "fabric-server-launch.jar") = true := by
      rw [hmem]
      decide
    simp only [_find_jar]
    rw [if_pos hcond]
  · intro habs hmem
    have hcond1 : (files.contains "fabric-server-launch.jar" &&
        is_server_jar "fabric-server-launch.jar") = false := by
      rw [habs]
      decide
    have hcond2 : (files.contains "fabric-server-launcher.jar" &&
        is_server_jar "fabric-server-launcher.jar") = true := by
      rw [hmem]
      decide
    simp only [_find_jar]
    rw [if_neg (by rw [hcond1]; decide), if_pos hcond2]
  · intro e h1 h2 h3 h4 h5
    simp [start, h1, h2, h3, h4, h5]
  · intro e h1 h2 h3 h5
    simp [start, h1, h2, h3, h5]

/-- Witness for claim C8's theorem: with an installer jar and the Fabric
launcher both present, the launcher is chosen. -/
theorem find_jar_selection_witness :
    _find_jar ["x-installer.jar", "fabric-server-launch.jar"] =
      some "fabric-server-launch.jar" :=
  (find_jar_selection ["x-installer.jar", "fabric-server-launch.jar"]).2.1 (by decide)
